import Mathlib

/-!
Shallow embedding of the deck-manager core (DeckList.jsx / DeckDetail.jsx):
the decklist text parser, the import orchestration over an external lookup
oracle, the localStorage collection load/replace/delete operations, and the
stats / mana-value / sorting functions, together with proofs of the frozen
claims about them.

Modelling conventions:
- JavaScript numbers holding counts are modelled as `Int` (the code can and
  does produce negative values in places, so `Nat` would be unfaithful);
  card quantities and mana values are `Nat` as the code only produces
  non-negative ones there.
- `localeCompare` is modelled as code-point lexicographic comparison on the
  character list of the strings (the app runs on ASCII card names, where the
  two agree on sign).
- The external lookup (`fetchScryfallCard`) and the wall clock are inputs:
  the import function takes an oracle `Nat → Except Unit (Option Scry)`
  giving, for each successive call, either a thrown exception or the
  (possibly null) card data.
- `JSON.parse` is modelled by an executable recursive-descent parser for the
  JSON fragment the application persists (integers, strings without escape
  processing, arrays, objects, literals); malformed input is `none`, which
  the load function turns into a thrown exception, mirroring the absence of
  any try/catch around `JSON.parse` in the load paths.
-/

namespace Mtg

/-! ## Character and string utilities -/

/-- JavaScript `String.prototype.trim` on a character list. -/
def trimL (cs : List Char) : List Char :=
  ((cs.dropWhile Char.isWhitespace).reverse.dropWhile Char.isWhitespace).reverse

/-- JavaScript `String.prototype.trim` on a string. -/
def jsTrim (s : String) : String := String.mk (trimL s.toList)

/-- JavaScript `text.split('\n')` on a character list. -/
def splitOnNl : List Char → List (List Char)
  | [] => [[]]
  | '\n' :: rest => [] :: splitOnNl rest
  | c :: rest =>
    match splitOnNl rest with
    | [] => [[c]]
    | l :: ls => (c :: l) :: ls

/-- Value of a non-empty digit string, as read by `parseInt` on pure digits. -/
def digitsToNat (ds : List Char) : Nat :=
  ds.foldl (fun n c => n * 10 + (c.toNat - '0'.toNat)) 0

/-- JavaScript `String.prototype.includes` (substring test). -/
def containsSeq (needle : List Char) : List Char → Bool
  | [] => needle.isEmpty
  | c :: rest => needle.isPrefixOf (c :: rest) || containsSeq needle rest

/-- JavaScript `String.prototype.toLowerCase`, per character. -/
def toLowerL (cs : List Char) : List Char := cs.map Char.toLower

/-- Sign-valued comparison of character lists: the model of `localeCompare`
(code-point lexicographic; see the header note). -/
def cmpStrL : List Char → List Char → Int
  | [], [] => 0
  | [], _ :: _ => -1
  | _ :: _, [] => 1
  | a :: as, b :: bs => if a < b then -1 else if b < a then 1 else cmpStrL as bs

/-- `a.localeCompare(b)` as used by the sort comparators. -/
def strCmp (a b : String) : Int := cmpStrL a.toList b.toList

/-! ## Decklist text parser (DeckList.jsx `parseDecklist`) -/

/-- One parsed decklist line: `{ name, quantity }`. -/
structure ParsedLine where
  name : String
  quantity : Nat
deriving DecidableEq, Repr

/-- Greedy Kleene star over a character class with backtracking into the
continuation, as a JavaScript regex engine executes `p*`. -/
def greedyStar (p : Char → Bool) (k : List Char → Option (List Char)) :
    List Char → Option (List Char)
  | [] => k []
  | c :: rest =>
    if p c then
      match greedyStar p k rest with
      | some r => some r
      | none => k (c :: rest)
    else k (c :: rest)

/-- Greedy optional single character with backtracking, as `c?` in a regex. -/
def greedyOpt (c : Char) (k : List Char → Option (List Char))
    (cs : List Char) : Option (List Char) :=
  match cs with
  | [] => k []
  | c' :: rest =>
    if c' = c then
      match k rest with
      | some r => some r
      | none => k cs
    else k cs

/-- The final `(.+)$` group: succeeds on any non-empty remainder, capturing it. -/
def plusAny (cs : List Char) : Option (List Char) :=
  if cs.isEmpty then none else some cs

/-- The tail of the line regex `\s*x?\s*-?\s*(.+)$`, applied after the leading
digits; returns the capture of the final group. -/
def matchTail : List Char → Option (List Char) :=
  greedyStar Char.isWhitespace
    (greedyOpt 'x'
      (greedyStar Char.isWhitespace
        (greedyOpt '-'
          (greedyStar Char.isWhitespace plusAny))))

/-- The continuation of the greedy group `(\d+)` into the tail
`\s*x?\s*-?\s*(.+)$`, with the JS backtracking order: each further digit is
preferentially absorbed into the group, and only when every continuation of
that choice fails does the group end here and the tail get tried from the
current position (so on an all-digit line such as "12" the group gives back
digits until `(.+)` can take the last one). Returns the digits absorbed
beyond the first together with the final capture. -/
def digitsThenTail : List Char → Option (List Char × List Char)
  | [] =>
    (match matchTail [] with
     | some cap => some ([], cap)
     | none => none)
  | c :: rest =>
    if c.isDigit then
      match digitsThenTail rest with
      | some (ds, cap) => some (c :: ds, cap)
      | none =>
        match matchTail (c :: rest) with
        | some cap => some ([], cap)
        | none => none
    else
      match matchTail (c :: rest) with
      | some cap => some ([], cap)
      | none => none

/-- The line regex `^(\d+)\s*x?\s*-?\s*(.+)$` followed by the quantity and
trim/positivity checks of the loop body: at least one leading digit is
required, the rest of the group and the tail match with full backtracking
via `digitsThenTail`, then `quantity = parseInt(match[1])` (the kept digit
group), `cardName = match[2].trim()`, pushed only
`if (cardName && quantity > 0)`. -/
def parseQtyLine (line : List Char) : Option ParsedLine :=
  match line with
  | [] => none
  | c :: rest =>
    if c.isDigit then
      match digitsThenTail rest with
      | none => none
      | some (ds, cap) =>
        let cardName := trimL cap
        let quantity := digitsToNat (c :: ds)
        if cardName.isEmpty || quantity = 0 then none
        else some { name := String.mk cardName, quantity := quantity }
    else none

/-- Per-line step of `parseDecklist`: skip comment and section-header lines,
then apply the quantity-line regex. The input is an already trimmed,
non-empty line. -/
def lineToCard (line : List Char) : Option ParsedLine :=
  if ['/', '/'].isPrefixOf line || ['#'].isPrefixOf line
      || containsSeq "commander".toList (toLowerL line)
      || containsSeq "sideboard".toList (toLowerL line) then
    none
  else parseQtyLine line

/-- DeckList.jsx `parseDecklist`: split into lines, trim, drop empties, and
collect the cards recognised by `lineToCard` in order. -/
def parseDecklist (text : String) : List ParsedLine :=
  (((splitOnNl text.toList).map trimL).filter (fun l => !l.isEmpty)).filterMap
    lineToCard

/-! ## Data model -/

/-- One enriched card entry of a stored deck. -/
structure CardEntry where
  name : String
  quantity : Nat
  imageUrl : Option String := none
  manaCost : String := ""
  cmc : Option Nat := none
  type : String := ""
  rarity : String := ""
deriving DecidableEq, Repr

/-- The commander summary stored on a deck. -/
structure Commander where
  name : String
  imageUrl : Option String
deriving DecidableEq, Repr

/-- Win/loss statistics of a deck. -/
structure Stats where
  wins : Int
  losses : Int
  mulligans : Int
  totalGames : Int
deriving DecidableEq, Repr

/-- The edit-stats form state (`statsInput`). -/
structure StatsInput where
  wins : Int
  losses : Int
  mulligans : Int
deriving DecidableEq, Repr

/-- A stored deck. -/
structure Deck where
  id : String
  name : String
  commander : Option Commander := none
  decklist : List CardEntry := []
  stats : Stats := ⟨0, 0, 0, 0⟩
  notes : String := ""
  createdAt : String := ""
deriving DecidableEq, Repr

/-! ## Stats mutations (DeckDetail.jsx) -/

/-- Which stat a quick-adjust button updates. -/
inductive StatKey where
  | wins
  | losses
  | mulligans
deriving DecidableEq, Repr

/-- DeckDetail.jsx `handleQuickStatUpdate`: the updated stat is clamped at 0
with `Math.max`, and for wins/losses the total is recomputed as
`Math.max(0, wins + losses + delta)` from the old, unclamped values;
adjusting mulligans leaves `totalGames` alone (`|| 0` is the identity on the
integer model). -/
def handleQuickStatUpdate (s : Stats) (stat : StatKey) (delta : Int) : Stats :=
  match stat with
  | .wins =>
    { s with
      wins := max 0 (s.wins + delta)
      totalGames := max 0 (s.wins + delta + s.losses) }
  | .losses =>
    { s with
      losses := max 0 (s.losses + delta)
      totalGames := max 0 (s.wins + s.losses + delta) }
  | .mulligans =>
    { s with mulligans := max 0 (s.mulligans + delta) }

/-- JavaScript `parseInt(value) || 0` as used by the edit-stats inputs:
skip leading whitespace, optional sign, leading decimal digits; no digits
gives `NaN`, which `|| 0` turns into 0 (and `-0` also becomes 0). -/
def parseIntOrZero (s : String) : Int :=
  let cs := s.toList.dropWhile Char.isWhitespace
  let signed : Int × List Char :=
    match cs with
    | '-' :: r => (-1, r)
    | '+' :: r => (1, r)
    | r => (1, r)
  let ds := signed.2.takeWhile Char.isDigit
  if ds.isEmpty then 0 else signed.1 * (digitsToNat ds : Int)

/-- DeckDetail.jsx `handleUpdateStats`: overwrite the stats with the form
values and recompute `totalGames` as wins + losses (`|| 0` is the identity
on the integer model); also store the notes. -/
def handleUpdateStats (d : Deck) (input : StatsInput) (notes : String) : Deck :=
  { d with
    stats :=
      { wins := input.wins
        losses := input.losses
        mulligans := input.mulligans
        totalGames := input.wins + input.losses }
    notes := notes }

/-- DeckDetail.jsx `winRate` (the numeric value before `toFixed` formatting):
divide only when `totalGames > 0`, else the constant 0; an absent stats
object compares `undefined > 0`, which is false. -/
def winRate (stats : Option Stats) : Rat :=
  match stats with
  | none => 0
  | some s =>
    if 0 < s.totalGames then (s.wins : Rat) / (s.totalGames : Rat) * 100 else 0

/-! ## Mana value, card type, sorting (DeckDetail.jsx) -/

/-- Sum of the regex matches of `/\{(\d+)\}/g` over the mana-cost string, as
a single left-to-right scan. The state `some (acc, seen)` means the scan is
inside a candidate match, after a `\x7b` and the digits accumulated in `acc`
(`seen` records whether there is at least one digit). A digit extends the
accumulator; a `\x7d` closes a match exactly when a digit was seen, adding
the accumulated value; a `\x7b` restarts a candidate; any other character
abandons the candidate. Skipping the already-scanned digits on failure is
exactly the engine retry from the next character, since a digit can never
begin a match of this pattern. -/
def braceSumAux : List Char → Option (Nat × Bool) → Nat
  | [], _ => 0
  | c :: rest, none =>
    if c = '{' then braceSumAux rest (some (0, false)) else braceSumAux rest none
  | c :: rest, some (acc, seen) =>
    if c.isDigit then
      braceSumAux rest (some (acc * 10 + (c.toNat - '0'.toNat), true))
    else if c = '}' then
      (if seen then acc + braceSumAux rest none else braceSumAux rest none)
    else if c = '{' then braceSumAux rest (some (0, false))
    else braceSumAux rest none

/-- Sum of the `/\{(\d+)\}/g` matches of a mana-cost string. -/
def braceSum (cs : List Char) : Nat := braceSumAux cs none

/-- DeckDetail.jsx `getManaValue`: return the stored `cmc` whenever it is
neither null nor undefined (modelled as `some`), including an explicit 0;
otherwise 0 for a missing/empty cost string, otherwise the brace sum. -/
def getManaValue (card : CardEntry) : Nat :=
  match card.cmc with
  | some c => c
  | none => if card.manaCost = "" then 0 else braceSum card.manaCost.toList

/-- DeckDetail.jsx `getCardType`: text before the first em-dash, trimmed;
an empty type line, or an empty prefix after trimming, yields "Unknown". -/
def getCardType (typeLine : String) : String :=
  if typeLine = "" then "Unknown"
  else
    let mainType := trimL (typeLine.toList.takeWhile (fun c => c ≠ '—'))
    if mainType.isEmpty then "Unknown" else String.mk mainType

/-- The `name` sort comparator: `a.name.localeCompare(b.name)`. -/
def cmpByName (a b : CardEntry) : Int := strCmp a.name b.name

/-- The `mana` sort comparator: mana-value difference, ties broken by name. -/
def cmpByMana (a b : CardEntry) : Int :=
  let manaA := getManaValue a
  let manaB := getManaValue b
  if manaA ≠ manaB then (manaA : Int) - (manaB : Int) else strCmp a.name b.name

/-- The `type` sort comparator: primary-type comparison, ties broken by name. -/
def cmpByType (a b : CardEntry) : Int :=
  let typeA := getCardType a.type
  let typeB := getCardType b.type
  if typeA ≠ typeB then strCmp typeA typeB else strCmp a.name b.name

/-- A stable sort with a sign-valued comparator: the model of the (stable)
JavaScript `Array.prototype.sort` applied to the copied list. -/
def sortWithCmp (cmp : CardEntry → CardEntry → Int) (l : List CardEntry) :
    List CardEntry :=
  l.insertionSort (fun a b => cmp a b ≤ 0)

/-- DeckDetail.jsx `getSortedDecklist`, as a function of the selected key and
the stored decklist (`!deck.decklist` is modelled by the empty list): copy,
then sort by the selected comparator; an unknown key returns the copy
unsorted. -/
def getSortedDecklist (sortBy : String) (decklist : List CardEntry) :
    List CardEntry :=
  if sortBy = "name" then sortWithCmp cmpByName decklist
  else if sortBy = "mana" then sortWithCmp cmpByMana decklist
  else if sortBy = "type" then sortWithCmp cmpByType decklist
  else decklist

/-! ## Collection store operations -/

/-- DeckDetail.jsx `saveDeck`, read-modify-write core:
`decks.map(d => d.id === id ? updatedDeck : d)`. -/
def replaceDeck (decks : List Deck) (id : String) (updatedDeck : Deck) :
    List Deck :=
  decks.map (fun d => if d.id = id then updatedDeck else d)

/-- DeckList.jsx `handleDeleteDeck`: on a confirmed dialog, keep exactly the
decks whose id differs; on decline, leave the collection as is. -/
def handleDeleteDeck (confirmed : Bool) (decks : List Deck) (deckId : String) :
    List Deck :=
  if confirmed then decks.filter (fun d => d.id ≠ deckId) else decks

/-! ## JSON model and the collection load path -/

/-- JSON values, for the model of `JSON.parse` (header note). -/
inductive Json where
  | null
  | jbool (b : Bool)
  | jnum (n : Int)
  | jstr (s : String)
  | jarr (xs : List Json)
  | jobj (kvs : List (String × Json))

/-- JSON whitespace skip. -/
def skipWs (cs : List Char) : List Char := cs.dropWhile Char.isWhitespace

mutual

/-- Fuel-bounded recursive-descent parser for one JSON value (header note);
returns the value and the unconsumed remainder. -/
def parseJsonV : Nat → List Char → Option (Json × List Char)
  | 0, _ => none
  | fuel + 1, cs =>
    match skipWs cs with
    | 'n' :: 'u' :: 'l' :: 'l' :: r => some (.null, r)
    | 't' :: 'r' :: 'u' :: 'e' :: r => some (.jbool true, r)
    | 'f' :: 'a' :: 'l' :: 's' :: 'e' :: r => some (.jbool false, r)
    | '"' :: r =>
      let body := r.takeWhile (fun c => c ≠ '"')
      match r.dropWhile (fun c => c ≠ '"') with
      | '"' :: r2 => some (.jstr (String.mk body), r2)
      | _ => none
    | '[' :: r =>
      (match skipWs r with
       | ']' :: r2 => some (.jarr [], r2)
       | _ =>
         match parseJsonItems fuel r with
         | some (xs, r2) => some (.jarr xs, r2)
         | none => none)
    | '{' :: r =>
      (match skipWs r with
       | '}' :: r2 => some (.jobj [], r2)
       | _ =>
         match parseJsonMembers fuel r with
         | some (kvs, r2) => some (.jobj kvs, r2)
         | none => none)
    | '-' :: r =>
      let ds := r.takeWhile Char.isDigit
      if ds.isEmpty then none
      else some (.jnum (-(digitsToNat ds : Int)), r.dropWhile Char.isDigit)
    | c :: r =>
      if c.isDigit then
        let ds := (c :: r).takeWhile Char.isDigit
        some (.jnum (digitsToNat ds : Int), (c :: r).dropWhile Char.isDigit)
      else none
    | [] => none

/-- Comma-separated JSON array elements, up to the closing bracket. -/
def parseJsonItems : Nat → List Char → Option (List Json × List Char)
  | 0, _ => none
  | fuel + 1, cs =>
    match parseJsonV fuel cs with
    | none => none
    | some (v, r) =>
      match skipWs r with
      | ',' :: r2 =>
        (match parseJsonItems fuel r2 with
         | some (xs, r3) => some (v :: xs, r3)
         | none => none)
      | ']' :: r2 => some ([v], r2)
      | _ => none

/-- Comma-separated JSON object members, up to the closing brace. -/
def parseJsonMembers : Nat → List Char → Option (List (String × Json) × List Char)
  | 0, _ => none
  | fuel + 1, cs =>
    match skipWs cs with
    | '"' :: r =>
      let key := r.takeWhile (fun c => c ≠ '"')
      match r.dropWhile (fun c => c ≠ '"') with
      | '"' :: r2 =>
        (match skipWs r2 with
         | ':' :: r3 =>
           (match parseJsonV fuel r3 with
            | none => none
            | some (v, r4) =>
              match skipWs r4 with
              | ',' :: r5 =>
                (match parseJsonMembers fuel r5 with
                 | some (kvs, r6) => some ((String.mk key, v) :: kvs, r6)
                 | none => none)
              | '}' :: r5 => some ([(String.mk key, v)], r5)
              | _ => none)
         | _ => none)
      | _ => none
    | _ => none

end

/-- The model of `JSON.parse`: parse one value and require only whitespace
after it; `none` models a thrown SyntaxError. -/
def jsonParse (s : String) : Option Json :=
  match parseJsonV (s.length + 1) s.toList with
  | some (v, rest) => if (skipWs rest).isEmpty then some v else none
  | none => none

/-- The collection load path (DeckList.jsx and DeckDetail.jsx useEffect):
`localStorage.getItem` yields `none` when the key is absent; a falsy blob
(absent or the empty string) leaves the initial empty collection in place;
otherwise `JSON.parse(savedDecks)` runs with no surrounding try/catch, so a
malformed blob makes the load throw (`Except.error`). -/
def loadCollection (blob : Option String) : Except Unit Json :=
  match blob with
  | none => .ok (.jarr [])
  | some s =>
    if s = "" then .ok (.jarr [])
    else
      match jsonParse s with
      | some v => .ok v
      | none => .error ()

/-! ## Import orchestration (DeckList.jsx `handleImport`) -/

/-- The fields the import reads from a Scryfall response record. -/
structure Scry where
  image_uris_normal : Option String := none
  card_faces_0_image_uris_normal : Option String := none
  mana_cost : Option String := none
  cmc : Option Nat := none
  card_faces_0_cmc : Option Nat := none
  type_line : Option String := none
  rarity : Option String := none
deriving DecidableEq, Repr

/-- JavaScript `a || b` on optional strings: an absent or empty string falls
through to the second operand. -/
def jsOrStr (a b : Option String) : Option String :=
  match a with
  | some s => if s = "" then b else some s
  | none => b

/-- The primary-image fallback chain
`data?.image_uris?.normal || data?.card_faces?.[0]?.image_uris?.normal || null`. -/
def scryImage (r : Scry) : Option String :=
  jsOrStr r.image_uris_normal (jsOrStr r.card_faces_0_image_uris_normal none)

/-- One decklist entry as assembled in the import loop from a parsed line and
the (possibly null) lookup result; `??` is `Option.orElse` and `|| ''` maps
an absent string to the empty string. -/
def buildCardEntry (pl : ParsedLine) (res : Option Scry) : CardEntry :=
  match res with
  | none =>
    { name := pl.name, quantity := pl.quantity, imageUrl := none
      manaCost := "", cmc := none, type := "", rarity := "" }
  | some r =>
    { name := pl.name, quantity := pl.quantity
      imageUrl := scryImage r
      manaCost := r.mana_cost.getD ""
      cmc := (r.cmc).orElse (fun _ => r.card_faces_0_cmc)
      type := r.type_line.getD ""
      rarity := r.rarity.getD "" }

/-- Case-insensitive name equality, `a.toLowerCase() === b.toLowerCase()`. -/
def lowerEq (a b : String) : Bool :=
  toLowerL a.toList == toLowerL b.toList

/-- The sequential enrichment loop of `handleImport`: one oracle call per
parsed line (the call may throw, which aborts the whole loop); the first
line whose name case-insensitively equals the commander target, while no
commander data is captured yet, captures this call's result. Returns the
assembled entries in order together with the captured commander data. -/
def importLoop (oracle : Nat → Except Unit (Option Scry))
    (commanderToFind : String) :
    List ParsedLine → Nat → Option Scry →
    Except Unit (List CardEntry × Option Scry)
  | [], _, cmd => .ok ([], cmd)
  | pl :: rest, i, cmd =>
    match oracle i with
    | .error e => .error e
    | .ok res =>
      let cmd' :=
        if lowerEq pl.name commanderToFind && cmd.isNone then res else cmd
      match importLoop oracle commanderToFind rest (i + 1) cmd' with
      | .error e => .error e
      | .ok (entries, cmdF) => .ok (buildCardEntry pl res :: entries, cmdF)

/-- The commander object assembled in step 4 of `handleImport`. -/
def buildCommander (commanderName : String) (parsed : List ParsedLine)
    (cmdData : Option Scry) : Option Commander :=
  match cmdData with
  | some r =>
    some
      { name :=
          if jsTrim commanderName = "" then
            ((parsed.head?).map ParsedLine.name).getD ""
          else jsTrim commanderName
        imageUrl := scryImage r }
  | none =>
    if jsTrim commanderName = "" then none
    else some { name := jsTrim commanderName, imageUrl := none }

/-- DeckList.jsx `handleImport` for given form fields, current collection,
lookup oracle (per-call results for the loop, plus the standalone commander
lookup of step 3), and a fresh id/timestamp. Returns the persisted
collection and the navigation target (`some id` exactly on success). Every
validation failure and every thrown exception lands in a branch that leaves
the collection untouched; the assembled deck is appended and saved only at
the end of the try block. -/
def handleImport (decks : List Deck) (decklistText deckName commanderName : String)
    (oracle : Nat → Except Unit (Option Scry))
    (oracleCmd : Except Unit (Option Scry))
    (newId now : String) : List Deck × Option String :=
  if jsTrim decklistText = "" then (decks, none)
  else if jsTrim deckName = "" then (decks, none)
  else
    let parsedCards := parseDecklist decklistText
    if parsedCards.isEmpty then (decks, none)
    else
      let commanderToFind :=
        if jsTrim commanderName = "" then
          ((parsedCards.head?).map ParsedLine.name).getD ""
        else jsTrim commanderName
      match importLoop oracle commanderToFind parsedCards 0 none with
      | .error _ => (decks, none)
      | .ok (decklist, cmdData) =>
        match
          (if jsTrim commanderName ≠ "" && cmdData.isNone then oracleCmd
           else .ok cmdData) with
        | .error _ => (decks, none)
        | .ok cmdData2 =>
          let newDeck : Deck :=
            { id := newId
              name := jsTrim deckName
              commander := buildCommander commanderName parsedCards cmdData2
              decklist := decklist
              stats := ⟨0, 0, 0, 0⟩
              notes := ""
              createdAt := now }
          (decks ++ [newDeck], some newId)

/-! ## Lemmas about the string comparator -/

theorem cmpStrL_neg (as bs : List Char) : cmpStrL bs as = -cmpStrL as bs := by
  induction as generalizing bs with
  | nil => cases bs <;> simp [cmpStrL]
  | cons a as ih =>
    cases bs with
    | nil => simp [cmpStrL]
    | cons b bs =>
      simp only [cmpStrL]
      rcases lt_trichotomy a b with h | h | h
      · simp [h, lt_asymm h]
      · subst h; simp [lt_irrefl, ih]
      · simp [h, lt_asymm h]

theorem cmpStrL_eq_zero_iff (as bs : List Char) : cmpStrL as bs = 0 ↔ as = bs := by
  induction as generalizing bs with
  | nil => cases bs <;> simp [cmpStrL]
  | cons a as ih =>
    cases bs with
    | nil => simp [cmpStrL]
    | cons b bs =>
      simp only [cmpStrL]
      rcases lt_trichotomy a b with h | h | h
      · simp [h, h.ne]
      · subst h; simp [lt_irrefl, ih]
      · simp [h, lt_asymm h, (h.ne).symm, ih]

theorem cmpStrL_trans {as bs cs : List Char} (h1 : cmpStrL as bs ≤ 0)
    (h2 : cmpStrL bs cs ≤ 0) : cmpStrL as cs ≤ 0 := by
  induction as generalizing bs cs with
  | nil => cases cs <;> simp [cmpStrL]
  | cons a as ih =>
    cases bs with
    | nil => simp [cmpStrL] at h1
    | cons b bs =>
      cases cs with
      | nil => simp [cmpStrL] at h2
      | cons c cs =>
        simp only [cmpStrL] at h1 h2 ⊢
        rcases lt_trichotomy a b with hab | hab | hab
        · rcases lt_trichotomy b c with hbc | hbc | hbc
          · have : a < c := lt_trans hab hbc
            simp [this]
          · subst hbc; simp [hab]
          · exfalso; rw [if_neg (lt_asymm hbc), if_pos hbc] at h2; omega
        · subst hab
          rcases lt_trichotomy a c with hac | hac | hac
          · simp [hac]
          · subst hac
            simp only [lt_irrefl, if_neg, if_false] at h1 h2 ⊢
            · exact ih h1 h2
          · exfalso; rw [if_neg (lt_asymm hac), if_pos hac] at h2; omega
        · exfalso; rw [if_neg (lt_asymm hab), if_pos hab] at h1; omega

theorem string_toList_inj {a b : String} (h : a.toList = b.toList) : a = b := by
  cases a with
  | mk d1 =>
    cases b with
    | mk d2 =>
      simp only [String.toList] at h
      exact congrArg String.mk h

theorem strCmp_neg (a b : String) : strCmp b a = -strCmp a b :=
  cmpStrL_neg a.toList b.toList

theorem strCmp_eq_zero_iff (a b : String) : strCmp a b = 0 ↔ a = b := by
  unfold strCmp
  rw [cmpStrL_eq_zero_iff]
  exact ⟨string_toList_inj, fun h => h ▸ rfl⟩

theorem strCmp_trans {a b c : String} (h1 : strCmp a b ≤ 0) (h2 : strCmp b c ≤ 0) :
    strCmp a c ≤ 0 :=
  cmpStrL_trans h1 h2

theorem strCmp_total (a b : String) : strCmp a b ≤ 0 ∨ strCmp b a ≤ 0 := by
  have h := strCmp_neg a b
  omega

theorem strCmp_lt_trans {a b c : String} (h1 : strCmp a b < 0)
    (h2 : strCmp b c < 0) : strCmp a c < 0 := by
  have h3 := strCmp_trans (le_of_lt h1) (le_of_lt h2)
  rcases lt_or_eq_of_le h3 with h | h
  · exact h
  · exfalso
    have hac : a = c := (strCmp_eq_zero_iff a c).mp h
    subst hac
    have hn := strCmp_neg a b
    omega

/-! ## Lemmas about the sort comparators -/

theorem cmpByName_eq_zero_name {a b : CardEntry} (h : cmpByName a b = 0) :
    a.name = b.name :=
  (strCmp_eq_zero_iff a.name b.name).mp h

theorem cmpByMana_eq_zero_name {a b : CardEntry} (h : cmpByMana a b = 0) :
    a.name = b.name := by
  by_cases hm : getManaValue a = getManaValue b
  · simp only [cmpByMana, hm, ne_eq, not_true_eq_false, if_false] at h
    exact (strCmp_eq_zero_iff a.name b.name).mp h
  · simp only [cmpByMana, ne_eq, hm, not_false_eq_true, if_true] at h
    omega

theorem cmpByType_eq_zero_name {a b : CardEntry} (h : cmpByType a b = 0) :
    a.name = b.name := by
  by_cases ht : getCardType a.type = getCardType b.type
  · simp only [cmpByType, ht, ne_eq, not_true_eq_false, if_false] at h
    exact (strCmp_eq_zero_iff a.name b.name).mp h
  · simp only [cmpByType, ne_eq, ht, not_false_eq_true, if_true] at h
    exact absurd ((strCmp_eq_zero_iff _ _).mp h) ht

theorem cmpByMana_neg (a b : CardEntry) : cmpByMana b a = -cmpByMana a b := by
  by_cases hm : getManaValue a = getManaValue b
  · simp only [cmpByMana, hm, ne_eq, not_true_eq_false, if_false]
    exact strCmp_neg a.name b.name
  · have hm2 : getManaValue b ≠ getManaValue a := fun h => hm h.symm
    simp only [cmpByMana, ne_eq, hm, hm2, not_false_eq_true, if_true]
    omega

theorem cmpByType_neg (a b : CardEntry) : cmpByType b a = -cmpByType a b := by
  by_cases ht : getCardType a.type = getCardType b.type
  · simp only [cmpByType, ht, ne_eq, not_true_eq_false, if_false]
    exact strCmp_neg a.name b.name
  · have ht2 : getCardType b.type ≠ getCardType a.type := fun h => ht h.symm
    simp only [cmpByType, ne_eq, ht, ht2, not_false_eq_true, if_true]
    exact strCmp_neg _ _

theorem cmpByMana_le_iff (a b : CardEntry) :
    cmpByMana a b ≤ 0 ↔
      (getManaValue a < getManaValue b ∨
        (getManaValue a = getManaValue b ∧ strCmp a.name b.name ≤ 0)) := by
  by_cases hm : getManaValue a = getManaValue b
  · simp only [cmpByMana, hm, ne_eq, not_true_eq_false, if_false]
    simp [hm]
  · simp only [cmpByMana, ne_eq, hm, not_false_eq_true, if_true]
    constructor
    · intro h; left; omega
    · intro h
      rcases h with h | ⟨h, _⟩
      · omega
      · exact h.elim

theorem cmpByMana_trans {a b c : CardEntry} (h1 : cmpByMana a b ≤ 0)
    (h2 : cmpByMana b c ≤ 0) : cmpByMana a c ≤ 0 := by
  rw [cmpByMana_le_iff] at h1 h2 ⊢
  rcases h1 with h1 | ⟨h1e, h1n⟩
  · rcases h2 with h2 | ⟨h2e, _⟩
    · exact Or.inl (lt_trans h1 h2)
    · exact Or.inl (h2e ▸ h1)
  · rcases h2 with h2 | ⟨h2e, h2n⟩
    · exact Or.inl (h1e ▸ h2)
    · exact Or.inr ⟨h1e.trans h2e, strCmp_trans h1n h2n⟩

theorem cmpByMana_total (a b : CardEntry) : cmpByMana a b ≤ 0 ∨ cmpByMana b a ≤ 0 := by
  have h := cmpByMana_neg a b
  omega

theorem cmpByType_le_iff (a b : CardEntry) :
    cmpByType a b ≤ 0 ↔
      (strCmp (getCardType a.type) (getCardType b.type) < 0 ∨
        (getCardType a.type = getCardType b.type ∧ strCmp a.name b.name ≤ 0)) := by
  by_cases ht : getCardType a.type = getCardType b.type
  · simp only [cmpByType, ht, ne_eq, not_true_eq_false, if_false]
    have : strCmp (getCardType b.type) (getCardType b.type) = 0 :=
      (strCmp_eq_zero_iff _ _).mpr rfl
    simp [ht, this]
  · simp only [cmpByType, ne_eq, ht, not_false_eq_true, if_true]
    have hne : strCmp (getCardType a.type) (getCardType b.type) ≠ 0 :=
      fun h => ht ((strCmp_eq_zero_iff _ _).mp h)
    constructor
    · intro h; left; omega
    · intro h
      rcases h with h | ⟨h, _⟩
      · exact le_of_lt h
      · exact h.elim

theorem cmpByType_trans {a b c : CardEntry} (h1 : cmpByType a b ≤ 0)
    (h2 : cmpByType b c ≤ 0) : cmpByType a c ≤ 0 := by
  rw [cmpByType_le_iff] at h1 h2 ⊢
  rcases h1 with h1 | ⟨h1e, h1n⟩
  · rcases h2 with h2 | ⟨h2e, _⟩
    · exact Or.inl (strCmp_lt_trans h1 h2)
    · exact Or.inl (h2e ▸ h1)
  · rcases h2 with h2 | ⟨h2e, h2n⟩
    · exact Or.inl (h1e ▸ h2)
    · exact Or.inr ⟨h1e.trans h2e, strCmp_trans h1n h2n⟩

theorem cmpByType_total (a b : CardEntry) : cmpByType a b ≤ 0 ∨ cmpByType b a ≤ 0 := by
  have h := cmpByType_neg a b
  omega

theorem cmpByName_trans {a b c : CardEntry} (h1 : cmpByName a b ≤ 0)
    (h2 : cmpByName b c ≤ 0) : cmpByName a c ≤ 0 :=
  strCmp_trans h1 h2

theorem cmpByName_total (a b : CardEntry) : cmpByName a b ≤ 0 ∨ cmpByName b a ≤ 0 :=
  strCmp_total a.name b.name

/-! ## Lemmas about the stable sort -/

theorem sortWithCmp_perm (cmp : CardEntry → CardEntry → Int) (l : List CardEntry) :
    (sortWithCmp cmp l).Perm l :=
  List.perm_insertionSort _ l

theorem sortWithCmp_idem (cmp : CardEntry → CardEntry → Int)
    (htot : ∀ a b, cmp a b ≤ 0 ∨ cmp b a ≤ 0)
    (htrans : ∀ {a b c}, cmp a b ≤ 0 → cmp b c ≤ 0 → cmp a c ≤ 0)
    (l : List CardEntry) :
    sortWithCmp cmp (sortWithCmp cmp l) = sortWithCmp cmp l := by
  unfold sortWithCmp
  haveI : IsTotal CardEntry (fun a b => cmp a b ≤ 0) := ⟨htot⟩
  haveI : IsTrans CardEntry (fun a b => cmp a b ≤ 0) :=
    ⟨fun _ _ _ h1 h2 => htrans h1 h2⟩
  exact List.Sorted.insertionSort_eq (List.sorted_insertionSort _ l)

theorem getSortedDecklist_perm (key : String) (l : List CardEntry) :
    (getSortedDecklist key l).Perm l := by
  unfold getSortedDecklist
  split
  · exact sortWithCmp_perm _ l
  · split
    · exact sortWithCmp_perm _ l
    · split
      · exact sortWithCmp_perm _ l
      · exact List.Perm.refl l

/-! ## Import control-flow lemma -/

theorem handleImport_cases (decks : List Deck) (text dname cname : String)
    (oracle : Nat → Except Unit (Option Scry)) (oc : Except Unit (Option Scry))
    (newId now : String) :
    handleImport decks text dname cname oracle oc newId now = (decks, none) ∨
    ∃ d, handleImport decks text dname cname oracle oc newId now =
      (decks ++ [d], some newId) := by
  unfold handleImport
  dsimp only
  repeat' first
    | exact Or.inl rfl
    | exact Or.inr ⟨_, rfl⟩
    | split

/-! ## Backtracking fidelity of the line regex model -/

/-- The embedded regex agrees with the JS engine's backtracking on the
boundary cases: the greedy `(\d+)` gives digits back to `(.+)` on all-digit
lines ("12" parses as quantity 1, name "2"; "2023" as quantity 202, name
"3"), the optional `x` and `-` are released when `(.+)` would be empty
("1x", "12x", "12-"), and a lone digit line has nothing left for `(.+)` and
is dropped. -/
theorem parseDecklist_backtracking_examples :
    parseDecklist "12" = [{ name := "2", quantity := 1 }] ∧
    parseDecklist "2023" = [{ name := "3", quantity := 202 }] ∧
    parseDecklist "1x" = [{ name := "x", quantity := 1 }] ∧
    parseDecklist "12x" = [{ name := "x", quantity := 12 }] ∧
    parseDecklist "12-" = [{ name := "-", quantity := 12 }] ∧
    parseDecklist "1" = [] := by
  decide

/-! ## Claim theorems -/

/-- C1. The claim states that after every quick-adjust operation
`totalGames = wins + losses`, and that decrementing a stat already at 0
leaves `totalGames` unaffected. The code violates this: from the consistent
state (wins 5, losses 0, mulligans 0, totalGames 5), decrementing losses
leaves losses clamped at 0 but recomputes `totalGames` from the unclamped
sum, producing 4 — `totalGames` changed and no longer equals
wins + losses. -/
theorem quickAdjust_decrement_at_zero_breaks_total :
    handleQuickStatUpdate ⟨5, 0, 0, 5⟩ StatKey.losses (-1) = ⟨5, 0, 0, 4⟩ ∧
    (handleQuickStatUpdate ⟨5, 0, 0, 5⟩ StatKey.losses (-1)).losses = 0 ∧
    (handleQuickStatUpdate ⟨5, 0, 0, 5⟩ StatKey.losses (-1)).totalGames ≠
      (handleQuickStatUpdate ⟨5, 0, 0, 5⟩ StatKey.losses (-1)).wins +
        (handleQuickStatUpdate ⟨5, 0, 0, 5⟩ StatKey.losses (-1)).losses ∧
    (handleQuickStatUpdate ⟨5, 0, 0, 5⟩ StatKey.losses (-1)).totalGames ≠
      (⟨5, 0, 0, 5⟩ : Stats).totalGames := by
  decide

/-- C2. Import is atomic with respect to the persisted collection: whenever
the import does not succeed (no navigation target is reported — in
particular whenever any oracle call throws after validation), the persisted
collection equals the collection before the attempt; and on success exactly
one fully assembled deck is appended at the end. -/
theorem import_failure_leaves_collection_unchanged :
    ∀ (decks : List Deck) (text dname cname : String)
      (oracle : Nat → Except Unit (Option Scry)) (oc : Except Unit (Option Scry))
      (newId now : String),
      ((handleImport decks text dname cname oracle oc newId now).2 = none →
        (handleImport decks text dname cname oracle oc newId now).1 = decks) ∧
      (∀ i, (handleImport decks text dname cname oracle oc newId now).2 = some i →
        ∃ d, (handleImport decks text dname cname oracle oc newId now).1 =
          decks ++ [d]) := by
  intro decks text dname cname oracle oc newId now
  rcases handleImport_cases decks text dname cname oracle oc newId now with
    h | ⟨d, h⟩
  · rw [h]
    exact ⟨fun _ => rfl, fun i hi => absurd hi (by simp)⟩
  · rw [h]
    constructor
    · intro hn
      simp at hn
    · intro i _
      exact ⟨d, rfl⟩

/-- Witness for C2: a three-card import whose second lookup throws leaves the
one-deck collection exactly as it was. -/
theorem import_failure_leaves_collection_unchanged_witness :
    (handleImport [{ id := "d0", name := "Old" }] "1 A\n1 B\n1 C" "D" ""
        (fun i => if i = 1 then .error () else .ok none) (.ok none) "99" "t").2 =
      none ∧
    (handleImport [{ id := "d0", name := "Old" }] "1 A\n1 B\n1 C" "D" ""
        (fun i => if i = 1 then .error () else .ok none) (.ok none) "99" "t").1 =
      [{ id := "d0", name := "Old" }] :=
  ⟨by decide,
    (import_failure_leaves_collection_unchanged [{ id := "d0", name := "Old" }]
        "1 A\n1 B\n1 C" "D" "" (fun i => if i = 1 then .error () else .ok none)
        (.ok none) "99" "t").1 (by decide)⟩

/-- C3, counterexample. The claim states that a malformed persisted blob is
tolerated by treating it as empty and that loading never raises; but the
load path applies `JSON.parse` with no try/catch, so the malformed blob
(a single closing brace) makes the load throw rather than yield anything. -/
theorem malformed_blob_load_raises :
    loadCollection (some "\x7d") = Except.error () ∧
    ∀ v, loadCollection (some "\x7d") ≠ Except.ok v := by
  have h0 : loadCollection (some "\x7d") = Except.error () := rfl
  refine ⟨h0, fun v h => ?_⟩
  rw [h0] at h
  exact Except.noConfusion h

/-- C3, amended. An absent blob (and the falsy empty-string blob) loads as
the empty collection without error; a malformed blob makes the load throw
(`JSON.parse` raises and nothing catches it), rather than being treated as
empty. -/
theorem load_absent_empty_malformed_raises :
    loadCollection none = Except.ok (Json.jarr []) ∧
    loadCollection (some "") = Except.ok (Json.jarr []) ∧
    loadCollection (some "\x7d") = Except.error () :=
  ⟨rfl, rfl, rfl⟩

/-- C4, counterexample. The claim states that after the bulk-overwrite stats
mutation no stat is negative for any caller-supplied input; but the edit
form feeds `parseInt(value) || 0` straight through with no floor, so typing
"-5" for wins stores wins = -5. -/
theorem bulk_stats_negative_input_cx :
    (handleUpdateStats { id := "d1", name := "Deck" }
        ⟨parseIntOrZero "-5", parseIntOrZero "2", parseIntOrZero "0"⟩ "").stats.wins =
      -5 ∧
    (handleUpdateStats { id := "d1", name := "Deck" }
        ⟨parseIntOrZero "-5", parseIntOrZero "2", parseIntOrZero "0"⟩ "").stats.wins <
      0 := by
  decide

/-- C4, amended. The bulk overwrite recomputes `totalGames` as wins + losses
unconditionally and stores the caller-supplied wins/losses/mulligans
verbatim, with no non-negativity clamp. -/
theorem bulk_stats_overwrite_amended :
    ∀ (d : Deck) (input : StatsInput) (notes : String),
      (handleUpdateStats d input notes).stats.totalGames =
        input.wins + input.losses ∧
      (handleUpdateStats d input notes).stats.wins = input.wins ∧
      (handleUpdateStats d input notes).stats.losses = input.losses ∧
      (handleUpdateStats d input notes).stats.mulligans = input.mulligans :=
  fun _ _ _ => ⟨rfl, rfl, rfl, rfl⟩

/-- C5. On the given input the parser returns exactly the three expected
entries in order (so the comment line, the blank line and the
"Commander: Foo" line are excluded and "Foo" appears nowhere); and for every
line, a line whose first character is not a digit (no leading integer) is
dropped rather than treated as quantity 1. -/
theorem parseDecklist_example_and_no_leading_integer :
    parseDecklist
        "1 Sol Ring\n2x Arcane Signet\n1 - Command Tower\n// comment\nCommander: Foo\n\n" =
      [{ name := "Sol Ring", quantity := 1 },
        { name := "Arcane Signet", quantity := 2 },
        { name := "Command Tower", quantity := 1 }] ∧
    ∀ (c : Char) (cs : List Char), c.isDigit = false →
      lineToCard (c :: cs) = none := by
  refine ⟨by decide, ?_⟩
  intro c cs h
  unfold lineToCard
  split
  · rfl
  · unfold parseQtyLine
    simp [h]

/-- Witness for C5: the integer-less line "Sol Ring" is dropped. -/
theorem parseDecklist_no_leading_integer_witness :
    ('S'.isDigit = false) ∧ lineToCard ('S' :: "ol Ring".toList) = none :=
  ⟨by decide,
    parseDecklist_example_and_no_leading_integer.2 'S' "ol Ring".toList (by decide)⟩

/-- C6, counterexample. The claim states the brace-parse fallback on
`"{3}{G}{G}"` with absent cmc yields 5; the code sums only the integers
inside braces (pips contribute 0), so it yields 3. -/
theorem manaValue_brace_fallback_cx :
    getManaValue { name := "Beast", quantity := 1,
                   manaCost := "{3}{G}{G}", cmc := none } = 3 ∧
    getManaValue { name := "Beast", quantity := 1,
                   manaCost := "{3}{G}{G}", cmc := none } ≠ 5 := by
  decide

/-- C6, amended. The stored cmc is returned whenever present — including an
explicit 0, which does not trigger the fallback; only an absent cmc falls
back, to 0 for a missing/empty cost string and otherwise to the sum of the
integers inside brace tokens (pips contribute 0), so `"{3}{G}{G}"` with
absent cmc yields 3. -/
theorem manaValue_amended :
    (∀ (card : CardEntry) (v : Nat), card.cmc = some v → getManaValue card = v) ∧
    (∀ card : CardEntry, card.cmc = none → card.manaCost = "" →
      getManaValue card = 0) ∧
    getManaValue { name := "Beast", quantity := 1,
                   manaCost := "{3}{G}{G}", cmc := none } = 3 ∧
    getManaValue { name := "Ornithopter", quantity := 1,
                   manaCost := "{0}", cmc := some 0 } = 0 := by
  refine ⟨?_, ?_, by decide, by decide⟩
  · intro card v h
    unfold getManaValue
    rw [h]
  · intro card h1 h2
    simp [getManaValue, h1, h2]

/-- Witness for C6: an explicit stored cmc of 0 is returned as 0. -/
theorem manaValue_amended_witness :
    ({ name := "Z", quantity := 1, cmc := some 0 } : CardEntry).cmc = some 0 ∧
    getManaValue { name := "Z", quantity := 1, cmc := some 0 } = 0 :=
  ⟨rfl, manaValue_amended.1 _ 0 rfl⟩

/-- C7. The replace operation of `saveDeck` preserves the collection's
length and order, substitutes the new deck at every index whose element's id
matches, leaves every element with a different id unchanged, and is a no-op
on the content when no element has the id. -/
theorem replaceDeck_spec :
    ∀ (decks : List Deck) (targetId : String) (nd : Deck),
      (replaceDeck decks targetId nd).length = decks.length ∧
      (∀ (i : Nat) (d : Deck), decks[i]? = some d → d.id ≠ targetId →
        (replaceDeck decks targetId nd)[i]? = some d) ∧
      (∀ (i : Nat) (d : Deck), decks[i]? = some d → d.id = targetId →
        (replaceDeck decks targetId nd)[i]? = some nd) ∧
      ((∀ d ∈ decks, d.id ≠ targetId) → replaceDeck decks targetId nd = decks) := by
  intro decks targetId nd
  refine ⟨by simp [replaceDeck], ?_, ?_, ?_⟩
  · intro i d hget hne
    unfold replaceDeck
    rw [List.getElem?_map, hget]
    simp [hne]
  · intro i d hget heq
    unfold replaceDeck
    rw [List.getElem?_map, hget]
    simp [heq]
  · intro hall
    unfold replaceDeck
    have h1 : decks.map (fun d => if d.id = targetId then nd else d) =
        decks.map (fun d => d) :=
      List.map_congr_left (fun d hd => if_neg (hall d hd))
    rw [h1]
    simp

/-- Witness for C7: replacing id "b" in a two-deck collection leaves the
deck with id "a" at its index. -/
theorem replaceDeck_spec_witness :
    ([{ id := "a", name := "A" }, { id := "b", name := "B" }] : List Deck)[0]? =
      some { id := "a", name := "A" } ∧
    ({ id := "a", name := "A" } : Deck).id ≠ "b" ∧
    (replaceDeck [{ id := "a", name := "A" }, { id := "b", name := "B" }] "b"
        { id := "b", name := "B2" })[0]? = some { id := "a", name := "A" } :=
  ⟨by decide, by decide,
    (replaceDeck_spec [{ id := "a", name := "A" }, { id := "b", name := "B" }]
        "b" { id := "b", name := "B2" }).2.1 0 _ (by decide) (by decide)⟩

/-- C8. Sorting by name twice gives the same list as sorting once; for the
mana and type keys the comparator is a total order tie-broken by name (it
negates under swap, is transitive on the nonpositive side, and compares two
entries equal only when their names are equal); and for every key the sorted
list is a permutation of the stored decklist, which is itself left
untouched. -/
theorem sorting_spec :
    (∀ l, getSortedDecklist "name" (getSortedDecklist "name" l) =
      getSortedDecklist "name" l) ∧
    (∀ a b, cmpByMana a b = 0 → a.name = b.name) ∧
    (∀ a b, cmpByType a b = 0 → a.name = b.name) ∧
    (∀ a b, cmpByMana b a = -cmpByMana a b) ∧
    (∀ a b, cmpByType b a = -cmpByType a b) ∧
    (∀ a b c, cmpByMana a b ≤ 0 → cmpByMana b c ≤ 0 → cmpByMana a c ≤ 0) ∧
    (∀ a b c, cmpByType a b ≤ 0 → cmpByType b c ≤ 0 → cmpByType a c ≤ 0) ∧
    (∀ key l, (getSortedDecklist key l).Perm l) := by
  refine ⟨?_, fun a b => cmpByMana_eq_zero_name, fun a b => cmpByType_eq_zero_name,
    cmpByMana_neg, cmpByType_neg, fun a b c h1 h2 => cmpByMana_trans h1 h2,
    fun a b c h1 h2 => cmpByType_trans h1 h2, getSortedDecklist_perm⟩
  intro l
  have hname : ∀ l0 : List CardEntry,
      getSortedDecklist "name" l0 = sortWithCmp cmpByName l0 := fun _ => rfl
  rw [hname, hname]
  exact sortWithCmp_idem cmpByName cmpByName_total
    (fun h1 h2 => cmpByName_trans h1 h2) l

/-- Witness for C8: two distinct entries sharing a name compare equal under
the mana comparator, and their names are indeed equal. -/
theorem sorting_spec_witness :
    cmpByMana { name := "A", quantity := 1, rarity := "rare" }
        { name := "A", quantity := 2, rarity := "common" } = 0 ∧
    ({ name := "A", quantity := 1, rarity := "rare" } : CardEntry).name =
      ({ name := "A", quantity := 2, rarity := "common" } : CardEntry).name :=
  ⟨by decide, sorting_spec.2.1 _ _ (by decide)⟩

/-- C9. The displayed win rate divides only under the guard
`totalGames > 0` (where the denominator is provably nonzero); when the
stats object is absent or `totalGames` is nonpositive, the win rate is the
constant 0 — the computation never divides by zero. -/
theorem winRate_guard :
    winRate none = 0 ∧
    (∀ s : Stats, s.totalGames ≤ 0 → winRate (some s) = 0) ∧
    (∀ s : Stats, 0 < s.totalGames →
      winRate (some s) = (s.wins : Rat) / (s.totalGames : Rat) * 100 ∧
        ((s.totalGames : Rat) ≠ 0)) := by
  refine ⟨rfl, ?_, ?_⟩
  · intro s h
    show (if 0 < s.totalGames then (s.wins : Rat) / (s.totalGames : Rat) * 100
      else 0) = 0
    rw [if_neg (not_lt.mpr h)]
  · intro s h
    refine ⟨?_, Int.cast_ne_zero.mpr (by omega)⟩
    show (if 0 < s.totalGames then (s.wins : Rat) / (s.totalGames : Rat) * 100
      else 0) = (s.wins : Rat) / (s.totalGames : Rat) * 100
    rw [if_pos h]

/-- Witness for C9: with 3 wins out of 5 games the guard is taken and the
quotient form is produced with a nonzero denominator. -/
theorem winRate_guard_witness :
    (0 : Int) < 5 ∧
    (winRate (some ⟨3, 2, 0, 5⟩) = ((3 : Int) : Rat) / ((5 : Int) : Rat) * 100 ∧
      (((5 : Int) : Rat) ≠ 0)) :=
  ⟨by decide, (winRate_guard.2.2 ⟨3, 2, 0, 5⟩ (by decide))⟩

/-- C10. Confirming deletion yields exactly the decks whose id differs — a
sublist of the original collection (original relative order, contents
unchanged); declining the confirmation leaves the collection unchanged. -/
theorem deleteDeck_spec :
    ∀ (decks : List Deck) (deckId : String),
      (∀ d, d ∈ handleDeleteDeck true decks deckId ↔
        (d ∈ decks ∧ d.id ≠ deckId)) ∧
      (handleDeleteDeck true decks deckId).Sublist decks ∧
      handleDeleteDeck false decks deckId = decks := by
  intro decks deckId
  refine ⟨?_, ?_, rfl⟩
  · intro d
    simp [handleDeleteDeck, List.mem_filter]
  · show (decks.filter fun d => d.id ≠ deckId).Sublist decks
    exact List.filter_sublist decks

/-- Witness for C10: after confirming deletion of id "a", the deck with id
"b" is still a member. -/
theorem deleteDeck_spec_witness :
    (({ id := "b", name := "B" } : Deck) ∈
        ([{ id := "a", name := "A" }, { id := "b", name := "B" }] : List Deck) ∧
      ({ id := "b", name := "B" } : Deck).id ≠ "a") ∧
    ({ id := "b", name := "B" } : Deck) ∈
      handleDeleteDeck true [{ id := "a", name := "A" }, { id := "b", name := "B" }]
        "a" :=
  ⟨by decide,
    ((deleteDeck_spec [{ id := "a", name := "A" }, { id := "b", name := "B" }]
          "a").1 { id := "b", name := "B" }).mpr (by decide)⟩

end Mtg
